import Mathlib

/-!
Shallow embedding of the real-time delivery / call-signaling core of the
chat-backend repository, together with theorems settling the specified
claims about it.

The message-side definitions embed `MessageController.markDelivered`,
`MessageController.markRead` and the recipient resolution inside
`MessageController.sendMessage` (src/controllers/messageController.ts).
The call-side definitions embed `CallController.initiateCall`,
`CallController.acceptCall`, `CallController.endCall` and
`CallController.reportRinging` (src/controllers/callController.ts).

Database rows are modelled as explicit values threaded through each
handler; the handler receives the row(s) its Prisma queries would fetch
(`Option` when the row may be absent), performs the same checks and field
updates, and returns the persisted row, the list of SSE events it emitted
via `sendEventToUser`, the media-token requests it issued, and the HTTP
status code of its response.  Relation sets (`deliveredTo`, `readBy`,
conversation members) are lists of user ids, in insertion order.  External
calls (Prisma writes, the LiveKit token service) are assumed to succeed
except where the embedded handler itself would reject the input.
-/

namespace ChatBackend

/-- JavaScript `a || b` on an optional string field of a request body:
the fallback is used when the field is absent or the empty string. -/
def jsOr : Option String → String → String
  | some s, d => if s = "" then d else s
  | none, d => d

/-- The `MessageStatus` enum of the Prisma schema. -/
inductive MessageStatus
  | SENT
  | DELIVERED
  | READ
deriving DecidableEq, Repr

/-- The status-related fields of a `Message` row that the delivery state
machine reads and mutates.  `deliveredTo` and `readBy` are the many-to-many
relation sets, as lists of user ids. -/
structure Message where
  id : String
  conversationId : Option String
  senderId : String
  status : MessageStatus
  deliveredTo : List String
  readBy : List String
deriving DecidableEq, Repr

/-- A `message:status` SSE event as emitted by `sendEventToUser` in the
mark-delivered / mark-read handlers. -/
structure StatusEvent where
  targetUserId : String
  eventName : String
  messageId : String
  statusText : String
  ackUserId : String
deriving DecidableEq, Repr

/-- Result of a mark-delivered / mark-read handler: the persisted message
row and the SSE events emitted. -/
structure MarkResult where
  msg : Message
  events : List StatusEvent
deriving DecidableEq, Repr

/-- Embedding of `conversation.members.filter(m => m.userId !== message.senderId).length`:
the promotion threshold, computed from current membership at
acknowledgment time. -/
def recipientCount (members : List String) (senderId : String) : Nat :=
  (members.filter (fun x => x ≠ senderId)).length

/-- Embedding of `MessageController.markDelivered` (messageController.ts,
lines 309-419) applied to the fetched message row.  `conv` is the joined
`message.conversation.members` relation (`none` when the conversation row
is absent). -/
def markDelivered (conv : Option (List String)) (m : Message)
    (targetUserId : String) : MarkResult :=
  if targetUserId ∈ m.deliveredTo then
    { msg := m, events := [] }
  else
    let m1 : Message := { m with deliveredTo := m.deliveredTo ++ [targetUserId] }
    let m2 : Message :=
      match m.conversationId, conv with
      | some cid, some members =>
        if cid = "" then m1
        else if recipientCount members m.senderId ≤ m1.deliveredTo.length then
          { m1 with status := MessageStatus.DELIVERED }
        else m1
      | _, _ => m1
    { msg := m2,
      events := [{ targetUserId := m.senderId, eventName := "message:status",
                   messageId := m.id, statusText := "delivered",
                   ackUserId := targetUserId }] }

/-- Embedding of `MessageController.markRead` (messageController.ts,
lines 425-556) applied to the fetched message row. -/
def markRead (conv : Option (List String)) (m : Message)
    (targetUserId : String) : MarkResult :=
  if targetUserId ∈ m.readBy then
    { msg := m, events := [] }
  else
    let isDelivered := targetUserId ∈ m.deliveredTo
    let m1 : Message :=
      { m with
        readBy := m.readBy ++ [targetUserId],
        deliveredTo :=
          if isDelivered then m.deliveredTo else m.deliveredTo ++ [targetUserId] }
    let m2 : Message :=
      match m.conversationId, conv with
      | some cid, some members =>
        if cid = "" then m1
        else if recipientCount members m.senderId ≤ m1.readBy.length then
          { m1 with status := MessageStatus.READ }
        else if m.status ≠ MessageStatus.READ then
          { m1 with status := MessageStatus.DELIVERED }
        else m1
      | _, _ => m1
    { msg := m2,
      events := [{ targetUserId := m.senderId, eventName := "message:status",
                   messageId := m.id, statusText := "read",
                   ackUserId := targetUserId }] }

/-- Target resolution `const targetUserId = toUserId || userId` in
`markDelivered`: the ack target is the `toUserId` field of the request
body when truthy, else the authenticated caller. -/
def markDeliveredRequest (conv : Option (List String)) (m : Message)
    (authUserId : String) (bodyToUserId : Option String) : MarkResult :=
  markDelivered conv m (jsOr bodyToUserId authUserId)

/-- Target resolution `const targetUserId = readByUserId || userId` in
`markRead`: the ack target is the `userId` field of the request body when
truthy, else the authenticated caller. -/
def markReadRequest (conv : Option (List String)) (m : Message)
    (authUserId : String) (bodyUserId : Option String) : MarkResult :=
  markRead conv m (jsOr bodyUserId authUserId)

/-- Embedding of `conversation.members.find(m => m.userId !== userId) ||
conversation.members[0]` in `sendMessage` (lines 89-91). -/
def resolveReceiverMember (members : List String) (senderId : String) :
    Option String :=
  match members.find? (fun x => x ≠ senderId) with
  | some x => some x
  | none => members.head?

/-- Embedding of `receiverMember?.userId || userId` in `sendMessage`
(line 92): the
`receiverId` field recorded on the created message row. -/
def resolveReceiverId (members : List String) (senderId : String) : String :=
  match resolveReceiverMember members senderId with
  | some x => if x = "" then senderId else x
  | none => senderId

/-- Embedding of `conversation.members.filter(m => m.userId !== userId)`
in `sendMessage` (lines 140-142): the list of user ids the `message:new`
event is broadcast to. -/
def resolveRecipientIds (members : List String) (senderId : String) :
    List String :=
  members.filter (fun x => x ≠ senderId)

/-- Fold `markDelivered` over a sequence of acknowledging users,
each acknowledgment seeing the message state the previous one produced. -/
def runMarkDelivered (conv : Option (List String)) (m : Message)
    (us : List String) : Message :=
  us.foldl (fun acc u => (markDelivered conv acc u).msg) m

/-- Fold `markRead` over a sequence of acknowledging users. -/
def runMarkRead (conv : Option (List String)) (m : Message)
    (us : List String) : Message :=
  us.foldl (fun acc u => (markRead conv acc u).msg) m

/-- The `CallStatus` enum of the Prisma schema. -/
inductive CallStatus
  | INITIATED
  | RINGING
  | ACCEPTED
  | ENDED
  | REJECTED
  | MISSED
  | BUSY
deriving DecidableEq, Repr

/-- Runtime validation of a raw status string against the `CallStatus`
database enum: Prisma rejects an update whose value names no enum member. -/
def parseCallStatus : String → Option CallStatus
  | "INITIATED" => some CallStatus.INITIATED
  | "RINGING" => some CallStatus.RINGING
  | "ACCEPTED" => some CallStatus.ACCEPTED
  | "ENDED" => some CallStatus.ENDED
  | "REJECTED" => some CallStatus.REJECTED
  | "MISSED" => some CallStatus.MISSED
  | "BUSY" => some CallStatus.BUSY
  | _ => none

/-- The terminal call states named by the spec. -/
def CallStatus.isTerminal : CallStatus → Bool
  | CallStatus.ENDED => true
  | CallStatus.REJECTED => true
  | CallStatus.MISSED => true
  | CallStatus.BUSY => true
  | _ => false

/-- The fields of a `Call` row that the call-signaling handlers read and
mutate.  Times are millisecond timestamps; `duration` is in seconds. -/
structure Call where
  id : String
  callerId : String
  receiverId : String
  conversationId : Option String
  roomId : String
  callType : String
  status : CallStatus
  startTime : Option Nat
  endTime : Option Nat
  duration : Option Int
deriving DecidableEq, Repr

/-- Payload of a call-signaling SSE event, restricted to the fields the
handlers put in it. -/
inductive CallEventPayload
  | incoming (callId : String) (callerId : String) (callType : String)
      (roomId : String)
  | ringing (callId : String)
  | accepted (callId : String) (receiverId : String)
  | ended (callId : String) (statusText : String) (duration : Int)
deriving DecidableEq, Repr

/-- A call-signaling SSE event as emitted by `sseManager.sendEventToUser`. -/
structure CallEvent where
  targetUserId : String
  payload : CallEventPayload
deriving DecidableEq, Repr

/-- Result of a call handler: HTTP status of the response, the call row as
persisted after the handler ran (`none` when no row exists), the SSE events
emitted, and the `(roomId, participantId)` LiveKit token requests issued. -/
structure CallActionResult where
  httpStatus : Nat
  call : Option Call
  events : List CallEvent
  tokenRequests : List (String × String)
deriving DecidableEq, Repr

/-- Room id generation in `initiateCall` (callController.ts, line 23):
the literal room-, then `callerId.substring(0, 8)`, a dash, and the
millisecond timestamp `Date.now()`. -/
def mkRoomId (callerId : String) (nowMs : Nat) : String :=
  "room-" ++ callerId.take 8 ++ "-" ++ toString nowMs

/-- Embedding of `CallController.initiateCall` (callController.ts, lines
12-64).  `receiverId` and `callType` are the raw request-body fields;
`newCallId` is the id the store assigns to the created row; `nowMs` is
`Date.now()` at the time the handler runs. -/
def initiateCall (callerId : String) (receiverId : Option String)
    (callType : Option String) (conversationId : Option String)
    (newCallId : String) (nowMs : Nat) : CallActionResult :=
  match receiverId, callType with
  | some r, some t =>
    if r = "" ∨ t = "" then
      { httpStatus := 400, call := none, events := [], tokenRequests := [] }
    else
      let roomId := mkRoomId callerId nowMs
      let call : Call :=
        { id := newCallId, callerId := callerId, receiverId := r,
          conversationId := conversationId, roomId := roomId, callType := t,
          status := CallStatus.INITIATED,
          startTime := none, endTime := none, duration := none }
      { httpStatus := 201, call := some call,
        events := [{ targetUserId := r,
                     payload := CallEventPayload.incoming newCallId callerId t roomId }],
        tokenRequests := [(roomId, callerId)] }
  | _, _ =>
    { httpStatus := 400, call := none, events := [], tokenRequests := [] }

/-- Embedding of `CallController.acceptCall` (callController.ts, lines
70-112) applied to the fetched call row. -/
def acceptCall (call : Option Call) (userId : String) (nowMs : Nat) :
    CallActionResult :=
  match call with
  | none => { httpStatus := 404, call := none, events := [], tokenRequests := [] }
  | some c =>
    if c.receiverId ≠ userId then
      { httpStatus := 404, call := some c, events := [], tokenRequests := [] }
    else
      let c1 : Call := { c with status := CallStatus.ACCEPTED, startTime := some nowMs }
      { httpStatus := 200, call := some c1,
        events := [{ targetUserId := c.callerId,
                     payload := CallEventPayload.accepted c.id userId }],
        tokenRequests := [(c.roomId, userId)] }

/-- Embedding of `CallController.endCall` (callController.ts, lines
118-171) applied to the fetched call row.  `bodyStatus` is the raw
`status` field of the request body. -/
def endCall (call : Option Call) (userId : String)
    (bodyStatus : Option String) (nowMs : Nat) : CallActionResult :=
  match call with
  | none => { httpStatus := 404, call := none, events := [], tokenRequests := [] }
  | some c =>
    if c.callerId ≠ userId ∧ c.receiverId ≠ userId then
      { httpStatus := 403, call := some c, events := [], tokenRequests := [] }
    else
      let duration : Int :=
        match c.startTime with
        | some st => Int.fdiv ((nowMs : Int) - (st : Int)) 1000
        | none => 0
      let finalStatusText := jsOr bodyStatus "ENDED"
      match parseCallStatus finalStatusText with
      | none =>
        { httpStatus := 500, call := some c, events := [], tokenRequests := [] }
      | some fs =>
        let c1 : Call :=
          { c with status := fs, endTime := some nowMs,
                   duration := if c.startTime.isSome then some duration else none }
        let targetId := if c.callerId = userId then c.receiverId else c.callerId
        { httpStatus := 200, call := some c1,
          events := [{ targetUserId := targetId,
                       payload := CallEventPayload.ended c.id finalStatusText duration }],
          tokenRequests := [] }

/-- Embedding of `CallController.reportRinging` (callController.ts, lines
177-206) applied to the fetched call row. -/
def reportRinging (call : Option Call) (userId : String) : CallActionResult :=
  match call with
  | none => { httpStatus := 404, call := none, events := [], tokenRequests := [] }
  | some c =>
    if c.receiverId ≠ userId then
      { httpStatus := 404, call := some c, events := [], tokenRequests := [] }
    else
      let c1 : Call := { c with status := CallStatus.RINGING }
      { httpStatus := 200, call := some c1,
        events := [{ targetUserId := c.callerId,
                     payload := CallEventPayload.ringing c.id }],
        tokenRequests := [] }

/-! ### Helper lemmas about the delivery state machine -/

theorem markDelivered_of_mem (conv : Option (List String)) (m : Message)
    (u : String) (h : u ∈ m.deliveredTo) :
    markDelivered conv m u = { msg := m, events := [] } := by
  simp [markDelivered, h]

theorem markRead_of_mem (conv : Option (List String)) (m : Message)
    (u : String) (h : u ∈ m.readBy) :
    markRead conv m u = { msg := m, events := [] } := by
  simp [markRead, h]

theorem markDelivered_step (members : List String) (cid : String) (m : Message)
    (u : String) (hconv : m.conversationId = some cid) (hcid : cid ≠ "")
    (hu : u ∉ m.deliveredTo) :
    (markDelivered (some members) m u).msg =
      { m with
        deliveredTo := m.deliveredTo ++ [u],
        status :=
          if recipientCount members m.senderId ≤ m.deliveredTo.length + 1 then
            MessageStatus.DELIVERED
          else m.status } := by
  simp only [markDelivered, if_neg hu, hconv]
  simp only [List.length_append, List.length_cons, List.length_nil]
  split_ifs with h1 h2 <;> simp_all

theorem markRead_step (members : List String) (cid : String) (m : Message)
    (u : String) (hconv : m.conversationId = some cid) (hcid : cid ≠ "")
    (hu : u ∉ m.readBy) :
    (markRead (some members) m u).msg =
      { m with
        readBy := m.readBy ++ [u],
        deliveredTo :=
          if u ∈ m.deliveredTo then m.deliveredTo else m.deliveredTo ++ [u],
        status :=
          if recipientCount members m.senderId ≤ m.readBy.length + 1 then
            MessageStatus.READ
          else if m.status ≠ MessageStatus.READ then MessageStatus.DELIVERED
          else m.status } := by
  simp only [markRead, if_neg hu, hconv]
  simp only [List.length_append, List.length_cons, List.length_nil]
  split_ifs with h1 h2 h3 <;> simp_all

theorem runMarkDelivered_spec (members : List String) (cid : String)
    (hcid : cid ≠ "") (us : List String) (m : Message)
    (hconv : m.conversationId = some cid)
    (hnd : us.Nodup) (hnew : ∀ u ∈ us, u ∉ m.deliveredTo) :
    (runMarkDelivered (some members) m us).deliveredTo = m.deliveredTo ++ us
    ∧ (us ≠ [] →
        (runMarkDelivered (some members) m us).status =
          (if recipientCount members m.senderId ≤ m.deliveredTo.length + us.length
           then MessageStatus.DELIVERED else m.status)) := by
  induction us generalizing m with
  | nil => simp [runMarkDelivered]
  | cons u rest ih =>
    obtain ⟨hu, hrestnd⟩ := List.nodup_cons.mp hnd
    have hum : u ∉ m.deliveredTo := hnew u (List.mem_cons_self u rest)
    have hstep := markDelivered_step members cid m u hconv hcid hum
    set m1 : Message := (markDelivered (some members) m u).msg with hm1
    have hfold : runMarkDelivered (some members) m (u :: rest)
        = runMarkDelivered (some members) m1 rest := rfl
    have hm1delivered : m1.deliveredTo = m.deliveredTo ++ [u] := by rw [hstep]
    have hm1sender : m1.senderId = m.senderId := by rw [hstep]
    have hm1conv : m1.conversationId = some cid := by rw [hstep]; exact hconv
    have hm1status : m1.status =
        if recipientCount members m.senderId ≤ m.deliveredTo.length + 1 then
          MessageStatus.DELIVERED
        else m.status := by rw [hstep]
    have hnew1 : ∀ v ∈ rest, v ∉ m1.deliveredTo := by
      intro v hv
      rw [hm1delivered]
      simp only [List.mem_append, List.mem_singleton]
      rintro (hvm | rfl)
      · exact hnew v (List.mem_cons_of_mem u hv) hvm
      · exact hu hv
    obtain ⟨h1, h2⟩ := ih m1 hm1conv hrestnd hnew1
    constructor
    · rw [hfold, h1, hm1delivered, List.append_assoc]
      rfl
    · intro _
      rw [hfold]
      rcases Decidable.em (rest = []) with hre | hre
      · subst hre
        show m1.status = _
        rw [hm1status]
        simp only [List.length_cons, List.length_nil, Nat.zero_add]
      · rw [h2 hre, hm1sender, hm1delivered]
        simp only [List.length_append, List.length_cons, List.length_nil,
          Nat.zero_add, List.length_singleton]
        by_cases hc :
            recipientCount members m.senderId ≤ m.deliveredTo.length + 1 + rest.length
        · rw [if_pos hc, if_pos (by omega)]
        · rw [if_neg hc, if_neg (by omega), hm1status,
            if_neg (by omega)]

theorem runMarkRead_spec (members : List String) (cid : String)
    (hcid : cid ≠ "") (us : List String) (m : Message)
    (hconv : m.conversationId = some cid)
    (hnd : us.Nodup) (hnew : ∀ u ∈ us, u ∉ m.readBy) :
    (runMarkRead (some members) m us).readBy = m.readBy ++ us
    ∧ (us ≠ [] →
        (runMarkRead (some members) m us).status =
          (if recipientCount members m.senderId ≤ m.readBy.length + us.length
           then MessageStatus.READ
           else if m.status = MessageStatus.READ then MessageStatus.READ
           else MessageStatus.DELIVERED)) := by
  induction us generalizing m with
  | nil => simp [runMarkRead]
  | cons u rest ih =>
    obtain ⟨hu, hrestnd⟩ := List.nodup_cons.mp hnd
    have hum : u ∉ m.readBy := hnew u (List.mem_cons_self u rest)
    have hstep := markRead_step members cid m u hconv hcid hum
    set m1 : Message := (markRead (some members) m u).msg with hm1
    have hfold : runMarkRead (some members) m (u :: rest)
        = runMarkRead (some members) m1 rest := rfl
    have hm1read : m1.readBy = m.readBy ++ [u] := by rw [hstep]
    have hm1sender : m1.senderId = m.senderId := by rw [hstep]
    have hm1conv : m1.conversationId = some cid := by rw [hstep]; exact hconv
    have hm1status : m1.status =
        if recipientCount members m.senderId ≤ m.readBy.length + 1 then
          MessageStatus.READ
        else if m.status ≠ MessageStatus.READ then MessageStatus.DELIVERED
        else m.status := by rw [hstep]
    have hnew1 : ∀ v ∈ rest, v ∉ m1.readBy := by
      intro v hv
      rw [hm1read]
      simp only [List.mem_append, List.mem_singleton]
      rintro (hvm | rfl)
      · exact hnew v (List.mem_cons_of_mem u hv) hvm
      · exact hu hv
    obtain ⟨h1, h2⟩ := ih m1 hm1conv hrestnd hnew1
    constructor
    · rw [hfold, h1, hm1read, List.append_assoc]
      rfl
    · intro _
      rw [hfold]
      rcases Decidable.em (rest = []) with hre | hre
      · subst hre
        show m1.status = _
        rw [hm1status]
        simp only [List.length_cons, List.length_nil, Nat.zero_add]
        by_cases hc : recipientCount members m.senderId ≤ m.readBy.length + 1
        · rw [if_pos hc, if_pos hc]
        · rw [if_neg hc, if_neg hc]
          by_cases hs : m.status = MessageStatus.READ
          · rw [if_pos hs, if_neg (by simp [hs]), hs]
          · rw [if_neg hs, if_pos (by simp [hs])]
      · rw [h2 hre, hm1sender, hm1read]
        simp only [List.length_append, List.length_cons, List.length_nil,
          Nat.zero_add, List.length_singleton]
        by_cases hc :
            recipientCount members m.senderId ≤ m.readBy.length + 1 + rest.length
        · rw [if_pos hc, if_pos (by omega)]
        · have houter :
              ¬ recipientCount members m.senderId ≤ m.readBy.length + (rest.length + 1) := by
            omega
          have hinner : ¬ recipientCount members m.senderId ≤ m.readBy.length + 1 := by
            omega
          rw [if_neg hc, if_neg houter, hm1status, if_neg hinner]
          by_cases hs : m.status = MessageStatus.READ <;> simp [hs]

theorem recipientCount_eq_card (members : List String) (s : String)
    (hnd : members.Nodup) (hs : s ∈ members) :
    recipientCount members s = members.length - 1 := by
  induction members with
  | nil => cases hs
  | cons a l ih =>
    obtain ⟨hal, hlnd⟩ := List.nodup_cons.mp hnd
    rcases List.mem_cons.mp hs with rfl | hmem
    · have hfil : l.filter (fun x => x ≠ s) = l := by
        rw [List.filter_eq_self]
        intro x hx
        have hxs : x ≠ s := fun hxe => hal (hxe ▸ hx)
        simp [hxs]
      simp only [recipientCount, List.filter_cons, decide_eq_true_eq, ne_eq]
      rw [if_neg (by simp), hfil]
      simp
    · have has : a ≠ s := fun h => hal (h ▸ hmem)
      have hlen : 0 < l.length := List.length_pos_of_mem hmem
      have hrec := ih hlnd hmem
      simp only [recipientCount, ne_eq] at hrec ⊢
      rw [List.filter_cons_of_pos]
      · simp only [List.length_cons]
        omega
      · simp [has]

theorem markDelivered_deliveredTo (conv : Option (List String)) (m : Message)
    (u : String) :
    (markDelivered conv m u).msg.deliveredTo =
      if u ∈ m.deliveredTo then m.deliveredTo else m.deliveredTo ++ [u] := by
  by_cases h : u ∈ m.deliveredTo
  · rw [markDelivered_of_mem conv m u h, if_pos h]
  · rw [if_neg h]
    simp only [markDelivered, if_neg h]
    cases hcc : m.conversationId <;> cases conv <;>
      simp <;> split_ifs <;> simp

theorem markRead_readBy (conv : Option (List String)) (m : Message)
    (u : String) :
    (markRead conv m u).msg.readBy =
      if u ∈ m.readBy then m.readBy else m.readBy ++ [u] := by
  by_cases h : u ∈ m.readBy
  · rw [markRead_of_mem conv m u h, if_pos h]
  · rw [if_neg h]
    simp only [markRead, if_neg h]
    cases hcc : m.conversationId <;> cases conv <;>
      simp <;> split_ifs <;> simp

theorem markRead_deliveredTo (conv : Option (List String)) (m : Message)
    (u : String) :
    (markRead conv m u).msg.deliveredTo =
      if u ∈ m.readBy then m.deliveredTo
      else if u ∈ m.deliveredTo then m.deliveredTo
      else m.deliveredTo ++ [u] := by
  by_cases h : u ∈ m.readBy
  · rw [markRead_of_mem conv m u h, if_pos h]
  · rw [if_neg h]
    simp only [markRead, if_neg h]
    cases hcc : m.conversationId <;> cases conv <;>
      simp <;> split_ifs <;> simp

theorem markDelivered_target_mem (conv : Option (List String)) (m : Message)
    (u : String) : u ∈ (markDelivered conv m u).msg.deliveredTo := by
  rw [markDelivered_deliveredTo]
  split_ifs with h
  · exact h
  · simp

theorem markRead_target_mem (conv : Option (List String)) (m : Message)
    (u : String) (hinv : u ∈ m.readBy → u ∈ m.deliveredTo) :
    u ∈ (markRead conv m u).msg.deliveredTo := by
  rw [markRead_deliveredTo]
  split_ifs with h h2
  · exact hinv h
  · exact h2
  · simp

theorem markRead_target_mem_readBy (conv : Option (List String)) (m : Message)
    (u : String) : u ∈ (markRead conv m u).msg.readBy := by
  rw [markRead_readBy]
  split_ifs with h
  · exact h
  · simp

/-! ### Claims about the delivery state machine -/

/-- C1: the spec claims message status is monotonically non-decreasing and in
particular that `markDelivered` never moves a READ message back to DELIVERED.
The code violates this: `markDelivered` sets status to DELIVERED whenever
`deliveredTo.length` reaches `recipientCount`, with no READ guard (unlike
`markRead`, which has one).  At the failing input — a READ message in a group
whose membership grew to {A,B,C,D} after B and C read it — a delivery
acknowledgment for D pushes `deliveredTo` to the threshold and the status is
written back from READ to DELIVERED. -/
theorem C1_markDelivered_downgrades_read :
    (⟨"m1", some "c1", "A", MessageStatus.READ, ["B", "C"], ["B", "C"]⟩ :
        Message).status = MessageStatus.READ
    ∧ (markDelivered (some ["A", "B", "C", "D"])
        ⟨"m1", some "c1", "A", MessageStatus.READ, ["B", "C"], ["B", "C"]⟩
        "D").msg.status = MessageStatus.DELIVERED := by
  exact ⟨rfl, by decide⟩

/-- C3: in a conversation whose distinct members include the sender, with
`N = recipientCount` non-sender members (N ≥ 1): starting from the freshly
created message (status SENT, empty relation sets), after N distinct users
have each had `markDelivered` processed the status is DELIVERED; after N
distinct users have each had `markRead` processed the status is READ; and the
promotion threshold equals the current member count of the conversation
minus one. -/
theorem C3_threshold_promotion (members : List String)
    (sender cid mid : String) (us : List String)
    (hmem : sender ∈ members) (hnd : members.Nodup) (hcid : cid ≠ "")
    (husnd : us.Nodup)
    (hlen : us.length = recipientCount members sender)
    (hpos : 0 < us.length) :
    (runMarkDelivered (some members)
        ⟨mid, some cid, sender, MessageStatus.SENT, [], []⟩ us).status
      = MessageStatus.DELIVERED
    ∧ (runMarkRead (some members)
        ⟨mid, some cid, sender, MessageStatus.SENT, [], []⟩ us).status
      = MessageStatus.READ
    ∧ recipientCount members sender = members.length - 1 := by
  have hne : us ≠ [] := by
    intro h
    rw [h] at hpos
    exact Nat.lt_irrefl 0 hpos
  have hd := runMarkDelivered_spec members cid hcid us
    ⟨mid, some cid, sender, MessageStatus.SENT, [], []⟩ rfl husnd
    (by intro u hu; simp)
  have hr := runMarkRead_spec members cid hcid us
    ⟨mid, some cid, sender, MessageStatus.SENT, [], []⟩ rfl husnd
    (by intro u hu; simp)
  refine ⟨?_, ?_, recipientCount_eq_card members sender hnd hmem⟩
  · rw [hd.2 hne]
    simp only [List.length_nil, Nat.zero_add]
    rw [if_pos (by omega)]
  · rw [hr.2 hne]
    simp only [List.length_nil, Nat.zero_add]
    rw [if_pos (by omega)]

/-- Witness for C3 at a concrete input: a three-member group
{A, B, C} with sender A, acknowledged by B then C. -/
theorem C3_threshold_promotion_witness :
    (runMarkDelivered (some ["A", "B", "C"])
        ⟨"m1", some "c1", "A", MessageStatus.SENT, [], []⟩ ["B", "C"]).status
      = MessageStatus.DELIVERED
    ∧ (runMarkRead (some ["A", "B", "C"])
        ⟨"m1", some "c1", "A", MessageStatus.SENT, [], []⟩ ["B", "C"]).status
      = MessageStatus.READ
    ∧ recipientCount ["A", "B", "C"] "A" = (["A", "B", "C"] : List String).length - 1 :=
  C3_threshold_promotion ["A", "B", "C"] "A" "c1" "m1" ["B", "C"]
    (by decide) (by decide) (by decide) (by decide) (by decide) (by decide)

/-- C4: `markDelivered` and `markRead` are idempotent — repeating the same
operation with the same (message, user) leaves the persisted message (its
deliveredTo, readBy and status) unchanged and emits no second
`message:status` event. -/
theorem C4_mark_idempotent (conv : Option (List String)) (m : Message)
    (u : String) :
    markDelivered conv (markDelivered conv m u).msg u
      = { msg := (markDelivered conv m u).msg, events := [] }
    ∧ markRead conv (markRead conv m u).msg u
      = { msg := (markRead conv m u).msg, events := [] } :=
  ⟨markDelivered_of_mem conv _ u (markDelivered_target_mem conv m u),
   markRead_of_mem conv _ u (markRead_target_mem_readBy conv m u)⟩

/-- C5: a successful `markRead(m, u)` leaves u in `deliveredTo(m)` even when
`markDelivered(m, u)` was never called: the handler adds u to `deliveredTo`
whenever u is absent from it, in the same update that adds u to `readBy`.
(The hypothesis is the invariant, maintained by both handlers, that a user
already in `readBy` is also in `deliveredTo`; it holds vacuously whenever u
has not read the message yet.) -/
theorem C5_read_implies_delivered (conv : Option (List String)) (m : Message)
    (u : String) (hinv : u ∈ m.readBy → u ∈ m.deliveredTo) :
    u ∈ (markRead conv m u).msg.deliveredTo
    ∧ u ∈ (markRead conv m u).msg.readBy :=
  ⟨markRead_target_mem conv m u hinv, markRead_target_mem_readBy conv m u⟩

/-- Witness for C5 at a concrete input: user B reads a fresh message it was
never marked delivered to; afterwards B is in both relation sets. -/
theorem C5_read_implies_delivered_witness :
    "B" ∈ (markRead (some ["A", "B"])
        ⟨"m1", some "c1", "A", MessageStatus.SENT, [], []⟩ "B").msg.deliveredTo
    ∧ "B" ∈ (markRead (some ["A", "B"])
        ⟨"m1", some "c1", "A", MessageStatus.SENT, [], []⟩ "B").msg.readBy :=
  C5_read_implies_delivered (some ["A", "B"])
    ⟨"m1", some "c1", "A", MessageStatus.SENT, [], []⟩ "B" (by decide)

/-- C9 counterexample: for a conversation whose only member is the sender,
the claim says recipient resolution hands downstream delivery a one-element
list containing the sender.  In the code only the scalar `receiverId`
fallback picks the sender; the recipient list actually used for delivery
(`recipientIds`, members minus sender) is empty, not `["alice"]`. -/
theorem C9_empty_recipients_cex :
    resolveReceiverId ["alice"] "alice" = "alice"
    ∧ resolveRecipientIds ["alice"] "alice" = []
    ∧ resolveRecipientIds ["alice"] "alice" ≠ ["alice"] := by
  refine ⟨by decide, by decide, by decide⟩

/-- C9 as amended: for a conversation whose only member is the sender, the
`receiverId` field recorded on the message falls back to the sender, but the
recipient list used to broadcast `message:new` is empty, so no delivery
event is emitted for such a conversation. -/
theorem C9_single_member_resolution (s : String) :
    resolveReceiverId [s] s = s ∧ resolveRecipientIds [s] s = [] := by
  constructor
  · simp only [resolveReceiverId, resolveReceiverMember, List.find?]
    simp
  · simp [resolveRecipientIds]

/-- C10: each acknowledgment is recorded for the user id supplied in the
request body (`toUserId` for delivered, `userId` for read) when that field
is truthy, and for the authenticated caller otherwise; the handlers never
check that the target is a conversation member, differs from the sender, or
equals the authenticated user — the recorded relation sets do not depend on
the conversation membership at all, so any authenticated user can record
acknowledgments on behalf of any user id. -/
theorem C10_ack_target (conv conv2 : Option (List String)) (m : Message)
    (auth s : String) (hs : s ≠ "") :
    markDeliveredRequest conv m auth (some s) = markDelivered conv m s
    ∧ markReadRequest conv m auth (some s) = markRead conv m s
    ∧ markDeliveredRequest conv m auth none = markDelivered conv m auth
    ∧ markReadRequest conv m auth none = markRead conv m auth
    ∧ s ∈ (markDeliveredRequest conv m auth (some s)).msg.deliveredTo
    ∧ s ∈ (markReadRequest conv m auth (some s)).msg.readBy
    ∧ (markDelivered conv m s).msg.deliveredTo
        = (markDelivered conv2 m s).msg.deliveredTo
    ∧ (markRead conv m s).msg.readBy = (markRead conv2 m s).msg.readBy := by
  have h1 : markDeliveredRequest conv m auth (some s) = markDelivered conv m s := by
    simp [markDeliveredRequest, jsOr, hs]
  have h2 : markReadRequest conv m auth (some s) = markRead conv m s := by
    simp [markReadRequest, jsOr, hs]
  refine ⟨h1, h2, rfl, rfl, ?_, ?_, ?_, ?_⟩
  · rw [h1]; exact markDelivered_target_mem conv m s
  · rw [h2]; exact markRead_target_mem_readBy conv m s
  · rw [markDelivered_deliveredTo, markDelivered_deliveredTo]
  · rw [markRead_readBy, markRead_readBy]

/-- Witness for C10 at a concrete input: caller B acknowledges on behalf of
Z, who is neither a member of the two-member conversation {A, B} nor the
caller; Z is recorded all the same, and the recording is identical when the
conversation row is absent altogether. -/
theorem C10_ack_target_witness :
    markDeliveredRequest (some ["A", "B"])
        ⟨"m1", some "c1", "A", MessageStatus.SENT, [], []⟩ "B" (some "Z")
      = markDelivered (some ["A", "B"])
        ⟨"m1", some "c1", "A", MessageStatus.SENT, [], []⟩ "Z"
    ∧ markReadRequest (some ["A", "B"])
        ⟨"m1", some "c1", "A", MessageStatus.SENT, [], []⟩ "B" (some "Z")
      = markRead (some ["A", "B"])
        ⟨"m1", some "c1", "A", MessageStatus.SENT, [], []⟩ "Z"
    ∧ markDeliveredRequest (some ["A", "B"])
        ⟨"m1", some "c1", "A", MessageStatus.SENT, [], []⟩ "B" none
      = markDelivered (some ["A", "B"])
        ⟨"m1", some "c1", "A", MessageStatus.SENT, [], []⟩ "B"
    ∧ markReadRequest (some ["A", "B"])
        ⟨"m1", some "c1", "A", MessageStatus.SENT, [], []⟩ "B" none
      = markRead (some ["A", "B"])
        ⟨"m1", some "c1", "A", MessageStatus.SENT, [], []⟩ "B"
    ∧ "Z" ∈ (markDeliveredRequest (some ["A", "B"])
        ⟨"m1", some "c1", "A", MessageStatus.SENT, [], []⟩ "B"
        (some "Z")).msg.deliveredTo
    ∧ "Z" ∈ (markReadRequest (some ["A", "B"])
        ⟨"m1", some "c1", "A", MessageStatus.SENT, [], []⟩ "B"
        (some "Z")).msg.readBy
    ∧ (markDelivered (some ["A", "B"])
        ⟨"m1", some "c1", "A", MessageStatus.SENT, [], []⟩ "Z").msg.deliveredTo
      = (markDelivered none
        ⟨"m1", some "c1", "A", MessageStatus.SENT, [], []⟩ "Z").msg.deliveredTo
    ∧ (markRead (some ["A", "B"])
        ⟨"m1", some "c1", "A", MessageStatus.SENT, [], []⟩ "Z").msg.readBy
      = (markRead none
        ⟨"m1", some "c1", "A", MessageStatus.SENT, [], []⟩ "Z").msg.readBy :=
  C10_ack_target (some ["A", "B"]) none
    ⟨"m1", some "c1", "A", MessageStatus.SENT, [], []⟩ "B" "Z" (by decide)

/-! ### Claims about the call signaling coordinator -/

/-- A call row used by the C2 counterexample and witness: an already-ended
call between caller A and receiver B. -/
def endedCallC2 : Call :=
  { id := "call2", callerId := "A", receiverId := "B", conversationId := none,
    roomId := "room-A-100", callType := "VIDEO", status := CallStatus.ENDED,
    startTime := none, endTime := some 200, duration := none }

/-- C2 counterexample: a call reaches the terminal state ENDED through
initiate followed by end, yet a second `end` on it is answered 200 and
re-applied rather than rejected as a conflict, and `reportRinging` moves the
terminal call back to RINGING — a transition out of a terminal state. -/
theorem C2_terminal_not_guarded_cex :
    ((endCall (initiateCall "A" (some "B") (some "VIDEO") none "call2" 100).call
        "A" none 200).call.map Call.status = some CallStatus.ENDED)
    ∧ ((endCall
        (endCall (initiateCall "A" (some "B") (some "VIDEO") none "call2" 100).call
          "A" none 200).call
        "A" none 300).httpStatus = 200)
    ∧ ((reportRinging
        (endCall (initiateCall "A" (some "B") (some "VIDEO") none "call2" 100).call
          "A" none 200).call
        "B").call.map Call.status = some CallStatus.RINGING) := by
  refine ⟨by decide, by decide, by decide⟩

/-- C2 as amended: the call handlers check only that the call exists and
that the acting user is the right party, never the current status; on any
call — terminal included — `end` by the caller succeeds (200) and re-applies
the final status, and `reportRinging` by the receiver succeeds and sets the
status to RINGING. -/
theorem C2_no_terminal_guard (c : Call) (now : Nat)
    (hterm : c.status.isTerminal = true) :
    (endCall (some c) c.callerId none now).httpStatus = 200
    ∧ ((endCall (some c) c.callerId none now).call.map Call.status
        = some CallStatus.ENDED)
    ∧ (reportRinging (some c) c.receiverId).httpStatus = 200
    ∧ ((reportRinging (some c) c.receiverId).call.map Call.status
        = some CallStatus.RINGING) := by
  have hp : parseCallStatus (jsOr none "ENDED") = some CallStatus.ENDED := rfl
  refine ⟨?_, ?_, ?_, ?_⟩ <;>
    simp [endCall, reportRinging, hp]

/-- Witness for C2 at a concrete input: the already-ended call
`endedCallC2`. -/
theorem C2_no_terminal_guard_witness :
    (endCall (some endedCallC2) "A" none 500).httpStatus = 200
    ∧ ((endCall (some endedCallC2) "A" none 500).call.map Call.status
        = some CallStatus.ENDED)
    ∧ (reportRinging (some endedCallC2) "B").httpStatus = 200
    ∧ ((reportRinging (some endedCallC2) "B").call.map Call.status
        = some CallStatus.RINGING) :=
  C2_no_terminal_guard endedCallC2 500 (by decide)

/-- A call row used by the C6 counterexample and witness: an already-ended
call between caller A and receiver B. -/
def endedCallC6 : Call :=
  { id := "call6", callerId := "A", receiverId := "B", conversationId := none,
    roomId := "room6", callType := "VIDEO", status := CallStatus.ENDED,
    startTime := none, endTime := some 100, duration := none }

/-- C6 counterexample: the claim says accept succeeds only from INITIATED or
RINGING, but `acceptCall` never reads the status: accepting an already-ENDED
call succeeds (200) and moves it to ACCEPTED. -/
theorem C6_accept_ignores_status_cex :
    endedCallC6.status = CallStatus.ENDED
    ∧ (acceptCall (some endedCallC6) "B" 200).httpStatus = 200
    ∧ ((acceptCall (some endedCallC6) "B" 200).call.map Call.status
        = some CallStatus.ACCEPTED) := by
  refine ⟨rfl, rfl, rfl⟩

/-- C6 as amended: accept succeeds whenever the call exists and the acting
user is the receiver of the call, regardless of its current status; on
success it sets status to ACCEPTED, records the start time, requests a media
credential for the receiver, and notifies the caller via `call:accepted`;
when the call does not exist or the actor is not the receiver it fails with
404 (NotFound/Unauthorized) and the call state is unchanged. -/
theorem C6_accept_behavior (c : Call) (u : String) (now : Nat) :
    acceptCall none u now
      = { httpStatus := 404, call := none, events := [], tokenRequests := [] }
    ∧ (c.receiverId ≠ u →
        acceptCall (some c) u now
          = { httpStatus := 404, call := some c, events := [],
              tokenRequests := [] })
    ∧ (c.receiverId = u →
        acceptCall (some c) u now
          = { httpStatus := 200,
              call := some { c with
                status := CallStatus.ACCEPTED,
                startTime := some now },
              events := [{ targetUserId := c.callerId,
                           payload := CallEventPayload.accepted c.id u }],
              tokenRequests := [(c.roomId, u)] }) := by
  refine ⟨rfl, ?_, ?_⟩
  · intro h
    simp [acceptCall, h]
  · intro h
    simp [acceptCall, h]

/-- Witness for C6 at a concrete input: receiver B accepts `endedCallC6`. -/
theorem C6_accept_behavior_witness :
    acceptCall (some endedCallC6) "B" 300
      = { httpStatus := 200,
          call := some { endedCallC6 with
            status := CallStatus.ACCEPTED,
            startTime := some 300 },
          events := [{ targetUserId := "A",
                       payload := CallEventPayload.accepted "call6" "B" }],
          tokenRequests := [("room6", "B")] } :=
  (C6_accept_behavior endedCallC6 "B" 300).2.2 rfl

/-- A ringing call between caller A and receiver B, used by the C7
counterexample and witness. -/
def ringingCallC7 : Call :=
  { id := "call7", callerId := "A", receiverId := "B", conversationId := none,
    roomId := "room7", callType := "AUDIO", status := CallStatus.RINGING,
    startTime := none, endTime := none, duration := none }

/-- C7 counterexample: the claim says any requested status outside
{REJECTED, MISSED, BUSY, ENDED} defaults to ENDED and no non-terminal value
is ever persisted by `end`; but the handler never validates the requested
value, so `end` with requested status "ACCEPTED" persists ACCEPTED — a
non-terminal status different from ENDED. -/
theorem C7_end_persists_nonterminal_cex :
    ((endCall (some ringingCallC7) "A" (some "ACCEPTED") 1000).call.map
        Call.status = some CallStatus.ACCEPTED)
    ∧ CallStatus.ACCEPTED ≠ CallStatus.ENDED
    ∧ CallStatus.ACCEPTED.isTerminal = false := by
  refine ⟨rfl, by decide, rfl⟩

/-- C7 as amended: for an `end` by the caller or receiver, the final
persisted status is the requested status whenever a non-empty string naming
any `CallStatus` value is supplied — terminal or not — and ENDED when the
field is absent or empty; a string naming no `CallStatus` value makes the
update fail (500) and leaves the call unchanged. -/
theorem C7_end_final_status (c : Call) (u : String) (now : Nat)
    (hparty : c.callerId = u ∨ c.receiverId = u) :
    ((endCall (some c) u none now).call.map Call.status
        = some CallStatus.ENDED)
    ∧ (∀ s cs, s ≠ "" → parseCallStatus s = some cs →
        (endCall (some c) u (some s) now).call.map Call.status = some cs)
    ∧ (∀ s, s ≠ "" → parseCallStatus s = none →
        (endCall (some c) u (some s) now).httpStatus = 500
        ∧ (endCall (some c) u (some s) now).call = some c) := by
  have hcond : ¬(c.callerId ≠ u ∧ c.receiverId ≠ u) := by
    rcases hparty with h | h <;> simp [h]
  have hE : parseCallStatus (jsOr none "ENDED") = some CallStatus.ENDED := rfl
  refine ⟨?_, ?_, ?_⟩
  · simp [endCall, hcond, hE]
  · intro s cs hs hparse
    have hjs : jsOr (some s) "ENDED" = s := by simp [jsOr, hs]
    simp [endCall, hcond, hjs, hparse]
  · intro s hs hparse
    have hjs : jsOr (some s) "ENDED" = s := by simp [jsOr, hs]
    constructor <;> simp [endCall, hcond, hjs, hparse]

/-- Witness for C7 at a concrete input: `ringingCallC7` ended by the caller
with no requested status (persists ENDED), with requested status "MISSED"
(persists MISSED), and with the invalid requested status "NONSENSE"
(update fails with 500, call unchanged). -/
theorem C7_end_final_status_witness :
    ((endCall (some ringingCallC7) "A" none 1000).call.map Call.status
        = some CallStatus.ENDED)
    ∧ ((endCall (some ringingCallC7) "A" (some "MISSED") 1000).call.map
        Call.status = some CallStatus.MISSED)
    ∧ (endCall (some ringingCallC7) "A" (some "NONSENSE") 1000).httpStatus = 500 :=
  have h := C7_end_final_status ringingCallC7 "A" 1000 (Or.inl rfl)
  ⟨h.1, h.2.1 "MISSED" CallStatus.MISSED (by decide) rfl,
    (h.2.2 "NONSENSE" (by decide) rfl).1⟩

/-- C8 counterexample: the claim says every successful initiate produces a
room identifier distinct from those of all other initiates; but the room id is
derived only from the first 8 characters of the caller id and the
millisecond timestamp, so two initiates by the same caller in the same
millisecond — distinct calls — share a room id. -/
theorem C8_roomId_collision_cex :
    ((initiateCall "alice" (some "bob") (some "VIDEO") none "call8a"
        1700000).call.map Call.roomId
      = (initiateCall "alice" (some "carol") (some "AUDIO") none "call8b"
        1700000).call.map Call.roomId)
    ∧ "call8a" ≠ "call8b" := by
  refine ⟨rfl, by decide⟩

/-- C8 as amended: each successful initiate creates the Call in INITIATED,
requests a media credential for the caller, and sends exactly one
`call:incoming` event to the receiver carrying the caller identity, call id,
room id and type; the room identifier is the deterministic value
`room-<first 8 chars of callerId>-<millisecond timestamp>`, so it is unique
only across initiates that differ in that caller prefix or millisecond, not
globally. -/
theorem C8_initiate_behavior (callerId r t newId : String)
    (conv : Option String) (now : Nat) (hr : r ≠ "") (ht : t ≠ "") :
    initiateCall callerId (some r) (some t) conv newId now
      = { httpStatus := 201,
          call := some { id := newId, callerId := callerId, receiverId := r,
                         conversationId := conv,
                         roomId := mkRoomId callerId now, callType := t,
                         status := CallStatus.INITIATED, startTime := none,
                         endTime := none, duration := none },
          events := [{ targetUserId := r,
                       payload := CallEventPayload.incoming newId callerId t
                         (mkRoomId callerId now) }],
          tokenRequests := [(mkRoomId callerId now, callerId)] }
    ∧ mkRoomId callerId now
        = "room-" ++ callerId.take 8 ++ "-" ++ toString now := by
  constructor
  · simp [initiateCall, hr, ht]
  · rfl

/-- Witness for C8 at a concrete input. -/
theorem C8_initiate_behavior_witness :
    initiateCall "alice" (some "bob") (some "VIDEO") none "call8w" 42
      = { httpStatus := 201,
          call := some { id := "call8w", callerId := "alice",
                         receiverId := "bob", conversationId := none,
                         roomId := mkRoomId "alice" 42, callType := "VIDEO",
                         status := CallStatus.INITIATED, startTime := none,
                         endTime := none, duration := none },
          events := [{ targetUserId := "bob",
                       payload := CallEventPayload.incoming "call8w" "alice"
                         "VIDEO" (mkRoomId "alice" 42) }],
          tokenRequests := [(mkRoomId "alice" 42, "alice")] }
    ∧ mkRoomId "alice" 42 = "room-" ++ "alice".take 8 ++ "-" ++ toString 42 :=
  C8_initiate_behavior "alice" "bob" "VIDEO" "call8w" none 42
    (by decide) (by decide)

end ChatBackend
